import Mathlib

/-!
Shallow embedding of the track-aggregation pipeline of the Ai_Deploy
repository (mood-based music recommendation app).

The embedded code:
* `authenticateSpotify` — token cache of the production API service
  (src/unnamed/part_008, lines 29-45);
* `fetchSongsByMood` — the aggregation pipeline of part_008 (lines 79-150);
  the near-duplicate copies in part_003 have the same success/catch
  behaviour (catch returns the empty list);
* `fetchSongsByMoodNetlify` — the variant of src/unnamed/part_001
  (lines 493-576), which differs from part_008 only in its catch block:
  authentication happens inside the try, and the catch rethrows
  authentication/configuration errors and wraps everything else;
* `getAccessToken` — the serverless token cache (src/functions/spotify.js).

Network I/O is modelled by an environment `Env` holding the response the
network would give to each request the pipeline can issue (one token
request, one search request, one track request per playlist id); times are
`Int` milliseconds.  Stateful module-level variables (`accessToken`,
`tokenExpiresAt`, `cache`) are threaded explicitly through a state `St`.
`CallLog` counts the network requests actually issued, so that
"no network call" claims are statable.  The concurrent `Promise.all`
fan-out is modelled sequentially in playlist order; the claims settled
here are insensitive to completion order.
-/

namespace Moodify

/-! ## JS string and Map primitives -/

/-- Containment of `pat` in a character list, modelling
`String.prototype.includes`. -/
def containsSub (pat : List Char) : List Char → Bool
  | [] => pat.isEmpty
  | c :: t => pat.isPrefixOf (c :: t) || containsSub pat t

/-- `s.includes(pat)` on strings. -/
def strIncludes (s pat : String) : Bool :=
  containsSub pat.data s.data

/-- `String.prototype.toLowerCase`: map `Char.toLower` over the character
list (the same mapping as Lean's `String.toLower`, stated over `data` so
that it computes by kernel reduction). -/
def strToLower (s : String) : String :=
  ⟨s.data.map Char.toLower⟩

/-- JS `Map.prototype.has`, on an insertion-ordered association list. -/
def jsMapHas {α : Type} : List (String × α) → String → Bool
  | [], _ => false
  | p :: m, k => decide (p.1 = k) || jsMapHas m k

/-- JS `Map.prototype.get` (keys of a real Map are unique, so first match
suffices). -/
def jsMapGet {α : Type} : List (String × α) → String → Option α
  | [], _ => none
  | p :: m, k => if p.1 = k then some p.2 else jsMapGet m k

/-- JS `Map.prototype.set`: an existing key keeps its original position and
has its value overwritten; a new key is appended at the end. -/
def jsMapSet {α : Type} (m : List (String × α)) (k : String) (v : α) :
    List (String × α) :=
  if jsMapHas m k then m.map (fun p => if p.1 = k then (k, v) else p)
  else m ++ [(k, v)]

/-- `new Map(entries)`: insert all entries left to right. -/
def jsMapOfList {α : Type} (l : List (String × α)) : List (String × α) :=
  l.foldl (fun m p => jsMapSet m p.1 p.2) []

/-- `Map.prototype.values` as a list (insertion order of keys). -/
def jsMapValues {α : Type} (m : List (String × α)) : List α :=
  m.map Prod.snd

/-! ## Data model -/

/-- The Track record built by the pipeline (id, title, artist, url,
preview_url, albumImageUrl). -/
structure Track where
  id : String
  title : String
  artist : String
  url : String
  preview_url : Option String
  albumImageUrl : String
  deriving Repr, DecidableEq, Inhabited

/-- Raw upstream track object: `item.track` of the playlist-tracks
response.  Fields the code reads are kept; `id` is `none` when the JS
value is missing/null (the code also treats the empty string as absent,
via `!t?.id`). -/
structure RawTrack where
  id : Option String
  name : String
  artistNames : List String
  spotifyUrl : String
  preview_url : Option String
  albumImageUrls : List String
  deriving Repr, DecidableEq

/-- One element of `trackData.items`; `track` is `none` for a null track. -/
structure RawItem where
  track : Option RawTrack
  deriving Repr, DecidableEq

/-- One element of `searchData.playlists.items`; the playlist itself can be
null, and its `id` can be missing. -/
structure RawPlaylist where
  id : Option String
  deriving Repr, DecidableEq

/-- The search response body.  `playlistsItems` is `none` when
`searchData.playlists?.items` is missing or not an array
(`Array.isArray` test in part_008). -/
structure SearchResp where
  playlistsItems : Option (List (Option RawPlaylist))
  deriving Repr, DecidableEq

/-- Token endpoint response body `{ access_token, expires_in }`. -/
structure AuthResp where
  access_token : String
  expires_in : Int
  deriving Repr, DecidableEq

/-- Environment: the reply the network gives to each request this call can
issue.  `now` is `Date.now()` during the call.  `trackResp pid` is the body
of `GET /playlists/pid/tracks` (`none` inside models a missing `items`
field); an `Except.error` is a failed/rejected request. -/
structure Env where
  now : Int
  authResp : Except Unit AuthResp
  searchResp : Except Unit SearchResp
  trackResp : String → Except Unit (Option (List RawItem))

/-- Module-level mutable state of the service: the token pair and the
result cache `Map`. -/
structure St where
  accessToken : Option String
  tokenExpiresAt : Int
  cache : List (String × List Track)
  deriving Repr, DecidableEq

/-- Initial module state: `accessToken = null`, `tokenExpiresAt = 0`,
empty cache. -/
def St.init : St := { accessToken := none, tokenExpiresAt := 0, cache := [] }

/-- Count of network requests issued by one call. -/
structure CallLog where
  authCalls : Nat
  searchCalls : Nat
  trackCalls : List String
  deriving Repr, DecidableEq

/-- The log of a call that made no network request at all. -/
def CallLog.zero : CallLog := ⟨0, 0, []⟩

/-! ## Blocklist and filtering -/

/-- The literal `BLOCKED_KEYWORDS` array (identical in every variant). -/
def BLOCKED_KEYWORDS : List String := [
  "happy birthday",
  "acoustic", "afrobeat", "alt-rock", "alternative", "ambient", "anime",
  "black-metal", "bluegrass", "blues", "bossanova", "brazil", "breakbeat",
  "british", "cantopop", "chicago-house", "children", "chill", "classical",
  "club", "comedy", "country", "dance", "dancehall", "death-metal",
  "deep-house", "detroit-techno", "disco", "disney", "drum-and-bass", "dub",
  "dubstep", "edm", "electro", "electronic", "emo", "folk", "forro", "french",
  "funk", "garage", "german", "gospel", "goth", "grindcore", "groove",
  "grunge", "guitar", "happy", "hard-rock", "hardcore", "hardstyle",
  "heavy-metal", "hip-hop", "holidays", "honky-tonk", "house", "idm",
  "indian", "indie", "indie-pop", "industrial", "iranian", "j-dance",
  "j-idol", "j-pop", "j-rock", "jazz", "k-pop", "kids", "latin", "latino",
  "malay", "mandopop", "metal", "metal-misc", "metalcore", "minimal-techno",
  "movies", "mpb", "new-age", "new-release", "opera", "pagode", "party",
  "philippines-opm", "piano", "pop", "pop-film", "post-dubstep", "power-pop",
  "progressive-house", "psych-rock", "punk", "punk-rock", "r-n-b", "rainy-day",
  "reggae", "reggaeton", "road-trip", "rock", "rock-n-roll", "rockabilly",
  "romance", "sad", "salsa", "samba", "sertanejo", "show-tunes",
  "singer-songwriter", "ska", "sleep", "songwriter", "soul", "soundtracks",
  "spanish", "study", "summer", "swedish", "synth-pop", "tango", "techno",
  "trance", "trip-hop", "turkish", "work-out", "world-music"]

/-- `BLOCKED_KEYWORDS.some(kw => name.includes(kw))` applied to the
lowercased title (`const name = t.name.toLowerCase()`). -/
def blockedTitle (title : String) : Bool :=
  BLOCKED_KEYWORDS.any (fun kw => strIncludes (strToLower title) kw)

/-- The body of the per-item `forEach` in part_008 (lines 119-134): skip a
null track or one without id, skip blocked titles, otherwise build the
Track record. -/
def trackOfItem (it : RawItem) : Option Track :=
  match it.track with
  | none => none
  | some t =>
    match t.id with
    | none => none
    | some tid =>
      if tid = "" then none
      else if blockedTitle t.name then none
      else some {
        id := tid,
        title := t.name,
        artist := String.intercalate ", " t.artistNames,
        url := t.spotifyUrl,
        preview_url := t.preview_url,
        albumImageUrl := t.albumImageUrls.head?.getD "" }

/-- Deduplication step (part_008 lines 141-143):
`Array.from(new Map(tracks.map(t => [t.id, t])).values())`. -/
def dedupById (ts : List Track) : List Track :=
  jsMapValues (jsMapOfList (ts.map (fun t => (t.id, t))))

/-! ## Token caches -/

/-- JS truthiness of a possibly-null string (`accessToken && ...`). -/
def truthyOpt : Option String → Bool
  | none => false
  | some s => s ≠ ""

/-- `accessToken && Date.now() < tokenExpiresAt - 60 * 1000`
(part_008 line 31). -/
def tokenValid (now : Int) (s : St) : Bool :=
  truthyOpt s.accessToken && decide (now < s.tokenExpiresAt - 60 * 1000)

/-- `authenticateSpotify` of part_008 (lines 29-45): return the cached
token when still valid, otherwise exchange, store token and
`Date.now() + expires_in * 1000`, and return the new token; on exchange
failure throw `Spotify authentication failed` without touching the stored
pair.  Third component counts token-endpoint requests. -/
def authenticateSpotify (env : Env) (s : St) :
    Except String String × St × Nat :=
  if tokenValid env.now s then
    (.ok (s.accessToken.getD ""), s, 0)
  else
    match env.authResp with
    | .ok d =>
      (.ok d.access_token,
       { s with accessToken := some d.access_token,
                tokenExpiresAt := env.now + d.expires_in * 1000 }, 1)
    | .error _ => (.error "Spotify authentication failed", s, 1)

/-- `authenticateSpotify` of part_001 (lines 430-459).  Identical logic;
only the thrown message differs (the 500-with-body case maps the upstream
message into a `Spotify configuration error:` message, abstracted here to
the generic message — both branches are rethrown unchanged by the caller's
catch, see `fetchSongsByMoodNetlify`). -/
def authenticateSpotifyNetlify (env : Env) (s : St) :
    Except String String × St × Nat :=
  if tokenValid env.now s then
    (.ok (s.accessToken.getD ""), s, 0)
  else
    match env.authResp with
    | .ok d =>
      (.ok d.access_token,
       { s with accessToken := some d.access_token,
                tokenExpiresAt := env.now + d.expires_in * 1000 }, 1)
    | .error _ =>
      (.error "Spotify authentication failed. Please check if Spotify API credentials are configured correctly.",
       s, 1)

/-- State of the serverless token cache `tokenCache` in
src/functions/spotify.js. -/
structure TokenCache where
  accessToken : Option String
  expiresAt : Int
  deriving Repr, DecidableEq

/-- `getAccessToken` of src/functions/spotify.js (lines 17-46): the
freshness test is `now < expiresAt`, and the stored expiry is
`now + (expires_in - 60) * 1000` (the 60-second buffer is folded into the
stored value instead of into the comparison). -/
def getAccessToken (now : Int) (resp : Except Unit AuthResp)
    (tc : TokenCache) : Except String String × TokenCache × Nat :=
  if truthyOpt tc.accessToken && decide (now < tc.expiresAt) then
    (.ok (tc.accessToken.getD ""), tc, 0)
  else
    match resp with
    | .ok d =>
      (.ok d.access_token,
       { accessToken := some d.access_token,
         expiresAt := now + (d.expires_in - 60) * 1000 }, 1)
    | .error _ => (.error "Failed to retrieve Spotify access token.", tc, 1)

/-! ## The aggregation pipeline -/

/-- Result-cache key: the template literal `mood_market`. -/
def cacheKey (mood market : String) : String :=
  mood ++ "_" ++ market

/-- Contribution of one playlist (body of the `playlists.map` callback,
part_008 lines 110-138): a null playlist or one without id is skipped with
no request; otherwise one request is issued and, on failure, the playlist
contributes no tracks.  Second component: playlist ids actually
requested. -/
def playlistTracks (env : Env) (pl : Option RawPlaylist) :
    List Track × List String :=
  match pl with
  | none => ([], [])
  | some p =>
    match p.id with
    | none => ([], [])
    | some pid =>
      if pid = "" then ([], [])
      else
        match env.trackResp pid with
        | .error _ => ([], [pid])
        | .ok items => ((items.getD []).filterMap trackOfItem, [pid])

/-- Steps 4-5 of the pipeline after a successful search: extract the
playlist array tolerantly, fetch every playlist, flatten the pushed
tracks.  Second component: the playlist-track requests issued. -/
def aggregate (env : Env) (sd : SearchResp) : List Track × List String :=
  let playlists := sd.playlistsItems.getD []
  let fetched := playlists.map (playlistTracks env)
  ((fetched.map Prod.fst).flatten, (fetched.map Prod.snd).flatten)

/-- `fetchSongsByMood` of part_008 (lines 79-150).  `playlistLimit` and
`trackLimit` only parametrise the outgoing requests, whose replies `Env`
already fixes.  Note the catch block (lines 146-149) resolves with the
empty list — it does not rethrow — and caches nothing. -/
def fetchSongsByMood (env : Env) (s : St) (mood : String)
    (market : String := "US") (playlistLimit : Nat := 5)
    (trackLimit : Nat := 10) :
    Except String (List Track) × St × CallLog :=
  let key := cacheKey mood market
  if jsMapHas s.cache key then
    (.ok ((jsMapGet s.cache key).getD []), s, CallLog.zero)
  else
    match authenticateSpotify env s with
    | (.error e, s1, a) => (.error e, s1, ⟨a, 0, []⟩)
    | (.ok _, s1, a) =>
      match env.searchResp with
      | .error _ => (.ok [], s1, ⟨a, 1, []⟩)
      | .ok sd =>
        let agg := aggregate env sd
        let uniqueTracks := dedupById agg.1
        (.ok uniqueTracks,
         { s1 with cache := jsMapSet s1.cache key uniqueTracks },
         ⟨a, 1, agg.2⟩)

/-- `fetchSongsByMood` of part_001 (lines 493-576).  Same pipeline, but
authentication happens inside the try block and the catch rethrows the
error when its message contains `configuration error` or
`authentication failed`, and otherwise throws the generic
`Failed to fetch music recommendations. Please try again later.`
message.  A raw axios search error carries neither marker, so it is
wrapped. -/
def fetchSongsByMoodNetlify (env : Env) (s : St) (mood : String)
    (market : String := "US") (playlistLimit : Nat := 5)
    (trackLimit : Nat := 10) :
    Except String (List Track) × St × CallLog :=
  let key := cacheKey mood market
  if jsMapHas s.cache key then
    (.ok ((jsMapGet s.cache key).getD []), s, CallLog.zero)
  else
    match authenticateSpotifyNetlify env s with
    | (.error e, s1, a) =>
      (if strIncludes e "configuration error" ||
          strIncludes e "authentication failed" then .error e
       else .error "Failed to fetch music recommendations. Please try again later.",
       s1, ⟨a, 0, []⟩)
    | (.ok _, s1, a) =>
      match env.searchResp with
      | .error _ =>
        (.error "Failed to fetch music recommendations. Please try again later.",
         s1, ⟨a, 1, []⟩)
      | .ok sd =>
        let agg := aggregate env sd
        let uniqueTracks := dedupById agg.1
        (.ok uniqueTracks,
         { s1 with cache := jsMapSet s1.cache key uniqueTracks },
         ⟨a, 1, agg.2⟩)

/-! ## Derived predicates and concrete test data -/

/-- Order of first occurrences of the elements of `l` (the key order a JS
Map built from `l` ends up with). -/
def firstSeen (l : List String) : List String :=
  l.foldl (fun acc k => if k ∈ acc then acc else acc ++ [k]) []

/-- The call will get past the authentication step: either the cached
token is still valid, or the token endpoint would answer successfully. -/
def authSucceeds (env : Env) (s : St) : Bool :=
  tokenValid env.now s ||
    (match env.authResp with
     | .ok _ => true
     | .error _ => false)

/-- Invariant: every list stored in the result cache has pairwise distinct
track ids. -/
def cacheNodup (s : St) : Bool :=
  s.cache.all (fun p => decide ((p.2.map Track.id).Nodup))

/-- Invariant: no list stored in the result cache contains a
blocklisted title. -/
def cacheClean (s : St) : Bool :=
  s.cache.all (fun p => p.2.all (fun t => !(blockedTitle t.title)))

/-- A successful token-endpoint reply used by the concrete scenarios. -/
def authOkResp : AuthResp := { access_token := "tok", expires_in := 3600 }

/-- A raw upstream item whose track passes the blocklist filter. -/
def itemZ : RawItem :=
  { track := some { id := some "a", name := "Zzz", artistNames := ["Ann"],
                    spotifyUrl := "u", preview_url := none,
                    albumImageUrls := [] } }

/-- The Track record that `itemZ` maps to. -/
def trkZ : Track :=
  { id := "a", title := "Zzz", artist := "Ann", url := "u",
    preview_url := none, albumImageUrl := "" }

/-- A second raw item with the same id `"a"` but different title. -/
def itemW : RawItem :=
  { track := some { id := some "a", name := "Zzw", artistNames := ["Bob"],
                    spotifyUrl := "w", preview_url := none,
                    albumImageUrls := [] } }

/-- The Track record that `itemW` maps to. -/
def trkW : Track :=
  { id := "a", title := "Zzw", artist := "Bob", url := "w",
    preview_url := none, albumImageUrl := "" }

/-- Environment where authentication succeeds but the playlist search
fails. -/
def envSearchFail : Env :=
  { now := 0, authResp := .ok authOkResp, searchResp := .error (),
    trackResp := fun _ => .error () }

/-- Environment where every request fails (including the token
endpoint). -/
def envAllFail : Env :=
  { now := 0, authResp := .error (), searchResp := .error (),
    trackResp := fun _ => .error () }

/-- Environment where the search succeeds with a missing
`playlists.items` field. -/
def envNoItems : Env :=
  { now := 0, authResp := .ok authOkResp,
    searchResp := .ok { playlistsItems := none },
    trackResp := fun _ => .error () }

/-- Environment with one playlist `p1` whose track listing holds two raw
items sharing the id `"a"`. -/
def envDup : Env :=
  { now := 0, authResp := .ok authOkResp,
    searchResp := .ok { playlistsItems := some [some { id := some "p1" }] },
    trackResp := fun pid =>
      if pid = "p1" then .ok (some [itemZ, itemW]) else .error () }

/-- The playlist list served by `envIso`. -/
def isoPlaylists : List (Option RawPlaylist) :=
  [some { id := some "p1" }, some { id := some "p2" }]

/-- Environment with playlists `p1` (succeeds with one track) and `p2`
(track fetch fails). -/
def envIso : Env :=
  { now := 0, authResp := .ok authOkResp,
    searchResp := .ok { playlistsItems := some isoPlaylists },
    trackResp := fun pid =>
      if pid = "p2" then .error () else .ok (some [itemZ]) }

/-- Environment with one playlist `p1` delivering one clean track. -/
def envOne : Env :=
  { now := 0, authResp := .ok authOkResp,
    searchResp := .ok { playlistsItems := some [some { id := some "p1" }] },
    trackResp := fun _ => .ok (some [itemZ]) }

/-- Module state after one pipeline run of `envOne` for key `"a_b_C"`. -/
def stOne : St :=
  { accessToken := some "tok", tokenExpiresAt := 3600000,
    cache := [("a_b_C", [trkZ])] }

/-- Module state holding a fresh token and an empty cache. -/
def stTok : St :=
  { accessToken := some "tok", tokenExpiresAt := 3600000, cache := [] }

/-- Module state after one pipeline run of `envOne` for key `"m_US"`. -/
def stMUS : St :=
  { accessToken := some "tok", tokenExpiresAt := 3600000,
    cache := [("m_US", [trkZ])] }

/-- Module state after one pipeline run of `envDup` for key `"m_US"`. -/
def stDup : St :=
  { accessToken := some "tok", tokenExpiresAt := 3600000,
    cache := [("m_US", [trkW])] }

/-- Decidable equality for `Except`, so concrete runs can be settled by
`decide`. -/
instance {ε α : Type} [DecidableEq ε] [DecidableEq α] :
    DecidableEq (Except ε α) := fun x y =>
  match x, y with
  | .ok a, .ok b =>
    if h : a = b then .isTrue (by rw [h])
    else .isFalse (fun hc => h (Except.ok.inj hc))
  | .error a, .error b =>
    if h : a = b then .isTrue (by rw [h])
    else .isFalse (fun hc => h (Except.error.inj hc))
  | .ok _, .error _ => .isFalse (fun hc => Except.noConfusion hc)
  | .error _, .ok _ => .isFalse (fun hc => Except.noConfusion hc)

/-! ## Lemmas about the JS Map model -/

theorem jsMapHas_iff {α : Type} (m : List (String × α)) (k : String) :
    jsMapHas m k = true ↔ k ∈ m.map Prod.fst := by
  induction m with
  | nil => simp [jsMapHas]
  | cons a t ih =>
    simp only [jsMapHas, Bool.or_eq_true, decide_eq_true_eq, List.map_cons,
      List.mem_cons, ih]
    constructor
    · rintro (h | h)
      · exact Or.inl h.symm
      · exact Or.inr h
    · rintro (h | h)
      · exact Or.inl h.symm
      · exact Or.inr h

theorem jsMapGet_eq_none {α : Type} {m : List (String × α)} {k : String}
    (h : jsMapHas m k = false) : jsMapGet m k = none := by
  induction m with
  | nil => rfl
  | cons a t ih =>
    simp only [jsMapHas, Bool.or_eq_false_iff, decide_eq_false_iff_not] at h
    simp [jsMapGet, h.1, ih h.2]

theorem jsMapGet_map_update_self {α : Type} (m : List (String × α))
    (k : String) (v : α) (h : jsMapHas m k = true) :
    jsMapGet (m.map (fun p => if p.1 = k then (k, v) else p)) k = some v := by
  induction m with
  | nil => simp [jsMapHas] at h
  | cons a t ih =>
    by_cases hak : a.1 = k
    · simp [jsMapGet, hak]
    · have ht : jsMapHas t k = true := by
        simp only [jsMapHas, Bool.or_eq_true, decide_eq_true_eq] at h
        rcases h with h | h
        · exact absurd h hak
        · exact h
      simp [jsMapGet, hak, ih ht]

theorem jsMapGet_map_update_ne {α : Type} (m : List (String × α))
    (k k' : String) (v : α) (hne : k' ≠ k) :
    jsMapGet (m.map (fun p => if p.1 = k then (k, v) else p)) k' =
      jsMapGet m k' := by
  induction m with
  | nil => rfl
  | cons a t ih =>
    by_cases hak : a.1 = k
    · simp [jsMapGet, hak, Ne.symm hne, ih]
    · simp [jsMapGet, hak, ih]

theorem jsMapGet_append_singleton {α : Type} (m : List (String × α))
    (k k' : String) (v : α) :
    jsMapGet (m ++ [(k, v)]) k' =
      match jsMapGet m k' with
      | some w => some w
      | none => if k' = k then some v else none := by
  induction m with
  | nil =>
    by_cases h : k' = k
    · simp [jsMapGet, h]
    · simp [jsMapGet, h, Ne.symm h]
  | cons a t ih =>
    by_cases h : a.1 = k' <;> simp [jsMapGet, h, ih]

theorem jsMapGet_jsMapSet {α : Type} (m : List (String × α)) (k k' : String)
    (v : α) :
    jsMapGet (jsMapSet m k v) k' =
      if k' = k then some v else jsMapGet m k' := by
  unfold jsMapSet
  by_cases hk : k' = k
  · subst hk
    rw [if_pos rfl]
    split
    · rename_i h
      exact jsMapGet_map_update_self m k' v h
    · rename_i h
      rw [jsMapGet_append_singleton,
        jsMapGet_eq_none (Bool.of_not_eq_true h)]
      simp
  · rw [if_neg hk]
    split
    · exact jsMapGet_map_update_ne m k k' v hk
    · rw [jsMapGet_append_singleton]
      cases hg : jsMapGet m k' <;> simp [hg, hk]

theorem mem_jsMapSet {α : Type} {q : String × α} {m : List (String × α)}
    {k : String} {v : α} (h : q ∈ jsMapSet m k v) : q = (k, v) ∨ q ∈ m := by
  unfold jsMapSet at h
  split at h
  · obtain ⟨p, hp, hq⟩ := List.mem_map.mp h
    by_cases hpk : p.1 = k
    · left
      rw [← hq]
      simp [hpk]
    · right
      rw [← hq]
      simp only [hpk, if_false]
      exact hp
  · rcases List.mem_append.mp h with h' | h'
    · right; exact h'
    · left; exact List.mem_singleton.mp h'

theorem jsMapSet_keys {α : Type} (m : List (String × α)) (k : String) (v : α) :
    (jsMapSet m k v).map Prod.fst =
      if jsMapHas m k then m.map Prod.fst else m.map Prod.fst ++ [k] := by
  unfold jsMapSet
  split
  · rw [List.map_map]
    apply List.map_congr_left
    intro p _
    by_cases hpk : p.1 = k
    · simp [hpk]
    · simp [hpk]
  · rw [List.map_append]
    rfl

theorem jsMapOfList_concat {α : Type} (l : List (String × α)) (p : String × α) :
    jsMapOfList (l ++ [p]) = jsMapSet (jsMapOfList l) p.1 p.2 := by
  simp [jsMapOfList, List.foldl_concat]

theorem firstSeen_concat (l : List String) (k : String) :
    firstSeen (l ++ [k]) =
      if k ∈ firstSeen l then firstSeen l else firstSeen l ++ [k] := by
  simp [firstSeen, List.foldl_concat]

theorem mem_firstSeen (l : List String) :
    ∀ k, k ∈ firstSeen l ↔ k ∈ l := by
  induction l using List.reverseRecOn with
  | nil => intro k; simp [firstSeen]
  | append_singleton l a ih =>
    intro k
    rw [firstSeen_concat]
    by_cases h : a ∈ firstSeen l
    · rw [if_pos h]
      simp only [List.mem_append, List.mem_singleton, ih]
      constructor
      · exact Or.inl
      · rintro (hk | rfl)
        · exact hk
        · exact (ih k).mp h
    · rw [if_neg h]
      simp [ih]

theorem firstSeen_nodup (l : List String) : (firstSeen l).Nodup := by
  induction l using List.reverseRecOn with
  | nil => simp [firstSeen]
  | append_singleton l a ih =>
    rw [firstSeen_concat]
    by_cases h : a ∈ firstSeen l
    · rwa [if_pos h]
    · rw [if_neg h]
      simp only [List.nodup_append, List.nodup_singleton, true_and]
      refine ⟨ih, ?_⟩
      intro x hx hx'
      rw [List.mem_singleton] at hx'
      exact h (hx' ▸ hx)

theorem jsMapOfList_keys {α : Type} (l : List (String × α)) :
    (jsMapOfList l).map Prod.fst = firstSeen (l.map Prod.fst) := by
  induction l using List.reverseRecOn with
  | nil => rfl
  | append_singleton l p ih =>
    rw [jsMapOfList_concat, jsMapSet_keys, ih, List.map_append,
      show List.map Prod.fst [p] = [p.1] from rfl, firstSeen_concat]
    by_cases h : p.1 ∈ firstSeen (l.map Prod.fst)
    · rw [if_pos h, if_pos]
      rw [jsMapHas_iff, ih]
      exact h
    · rw [if_neg h, if_neg]
      rw [jsMapHas_iff, ih]
      exact h

theorem mem_jsMapOfList {α : Type} {q : String × α} {l : List (String × α)}
    (h : q ∈ jsMapOfList l) : q ∈ l := by
  induction l using List.reverseRecOn with
  | nil => cases h
  | append_singleton l p ih =>
    rw [jsMapOfList_concat] at h
    rcases mem_jsMapSet h with h' | h'
    · rw [List.mem_append, List.mem_singleton]
      right
      rw [h']
    · exact List.mem_append.mpr (Or.inl (ih h'))

theorem jsMapGet_jsMapOfList {α : Type} (l : List (String × α)) (k : String) :
    jsMapGet (jsMapOfList l) k =
      ((l.filter (fun p => decide (p.1 = k))).getLast?).map Prod.snd := by
  induction l using List.reverseRecOn with
  | nil => rfl
  | append_singleton l p ih =>
    rw [jsMapOfList_concat, jsMapGet_jsMapSet, List.filter_append]
    by_cases hpk : p.1 = k
    · rw [if_pos hpk.symm]
      have hf : List.filter (fun q => decide (q.1 = k)) [p] = [p] := by
        simp [hpk]
      rw [hf, List.getLast?_concat]
      rfl
    · rw [if_neg (fun h => hpk h.symm)]
      have hf : List.filter (fun q => decide (q.1 = k)) [p] = [] := by
        simp [hpk]
      rw [hf, List.append_nil, ih]

theorem jsMapGet_of_mem {α : Type} {m : List (String × α)}
    (hnd : (m.map Prod.fst).Nodup) {q : String × α} (hq : q ∈ m) :
    jsMapGet m q.1 = some q.2 := by
  induction m with
  | nil => cases hq
  | cons a t ih =>
    rcases List.mem_cons.mp hq with rfl | hq'
    · simp [jsMapGet]
    · have ha : a.1 ≠ q.1 := by
        have hq1 : q.1 ∈ t.map Prod.fst := List.mem_map.mpr ⟨q, hq', rfl⟩
        have hnm : a.1 ∉ t.map Prod.fst := by
          rw [List.map_cons, List.nodup_cons] at hnd
          exact hnd.1
        intro hcontra
        exact hnm (hcontra ▸ hq1)
      have hnd' : (t.map Prod.fst).Nodup := by
        rw [List.map_cons, List.nodup_cons] at hnd
        exact hnd.2
      simp [jsMapGet, ha, ih hnd' hq']

theorem jsMapGet_some_mem {α : Type} {m : List (String × α)} {k : String}
    {v : α} (h : jsMapGet m k = some v) : (k, v) ∈ m := by
  induction m with
  | nil => cases h
  | cons a t ih =>
    by_cases hak : a.1 = k
    · rw [jsMapGet, if_pos hak] at h
      injection h with h2
      rw [List.mem_cons]
      left
      rw [← hak, ← h2]
    · rw [jsMapGet, if_neg hak] at h
      exact List.mem_cons_of_mem _ (ih h)

theorem jsMapHas_some {α : Type} {m : List (String × α)} {k : String}
    (h : jsMapHas m k = true) : ∃ v, jsMapGet m k = some v := by
  induction m with
  | nil => simp [jsMapHas] at h
  | cons a t ih =>
    by_cases hak : a.1 = k
    · exact ⟨a.2, by simp [jsMapGet, hak]⟩
    · simp only [jsMapHas, Bool.or_eq_true, decide_eq_true_eq] at h
      rcases h with h | h
      · exact absurd h hak
      · obtain ⟨v, hv⟩ := ih h
        exact ⟨v, by simp [jsMapGet, hak, hv]⟩

/-! ## Deduplication lemmas -/

theorem dedup_pairs_id (ts : List Track) :
    ∀ q ∈ jsMapOfList (ts.map (fun t => (t.id, t))), q.2.id = q.1 := by
  intro q hq
  obtain ⟨t, _, rfl⟩ := List.mem_map.mp (mem_jsMapOfList hq)
  rfl

theorem dedupById_ids (ts : List Track) :
    (dedupById ts).map Track.id = firstSeen (ts.map Track.id) := by
  unfold dedupById jsMapValues
  rw [List.map_map]
  have h1 : List.map (Track.id ∘ Prod.snd)
        (jsMapOfList (ts.map fun t => (t.id, t))) =
      List.map Prod.fst (jsMapOfList (ts.map fun t => (t.id, t))) :=
    List.map_congr_left (fun q hq => dedup_pairs_id ts q hq)
  rw [h1, jsMapOfList_keys, List.map_map]
  rfl

theorem dedupById_nodup (ts : List Track) :
    ((dedupById ts).map Track.id).Nodup := by
  rw [dedupById_ids]
  exact firstSeen_nodup _

theorem mem_of_mem_dedupById {t : Track} {ts : List Track}
    (h : t ∈ dedupById ts) : t ∈ ts := by
  unfold dedupById jsMapValues at h
  obtain ⟨q, hq, rfl⟩ := List.mem_map.mp h
  obtain ⟨u, hu, rfl⟩ := List.mem_map.mp (mem_jsMapOfList hq)
  exact hu

theorem dedupById_last {t : Track} {ts : List Track} (h : t ∈ dedupById ts) :
    (ts.filter (fun u => decide (u.id = t.id))).getLast? = some t := by
  unfold dedupById jsMapValues at h
  obtain ⟨q, hq, rfl⟩ := List.mem_map.mp h
  have hq1 : q.1 = q.2.id := (dedup_pairs_id ts q hq).symm
  have hnd : ((jsMapOfList (ts.map fun t => (t.id, t))).map Prod.fst).Nodup := by
    rw [jsMapOfList_keys]
    exact firstSeen_nodup _
  have hget := jsMapGet_of_mem hnd hq
  rw [jsMapGet_jsMapOfList, List.filter_map, List.getLast?_map] at hget
  cases hL : (ts.filter
      ((fun p => decide (p.1 = q.1)) ∘ fun t => (t.id, t))).getLast? with
  | none => rw [hL] at hget; cases hget
  | some u =>
    rw [hL] at hget
    simp only [Option.map_some'] at hget
    injection hget with h2
    have hu : u = q.2 := h2
    subst hu
    rw [← hq1]
    exact hL

/-! ## Filter lemma -/

theorem trackOfItem_not_blocked {it : RawItem} {t : Track}
    (h : trackOfItem it = some t) : blockedTitle t.title = false := by
  unfold trackOfItem at h
  split at h
  · cases h
  · split at h
    · cases h
    · split at h
      · cases h
      · split at h
        · cases h
        · rename_i rt tid hne hblk
          injection h with h3
          rw [← h3]
          simpa using hblk

/-! ## Branch characterisations of the token cache and pipeline -/

theorem auth_valid {env : Env} {s : St} (h : tokenValid env.now s = true) :
    authenticateSpotify env s = (.ok (s.accessToken.getD ""), s, 0) := by
  unfold authenticateSpotify
  rw [if_pos h]

theorem auth_refresh {env : Env} {s : St} {d : AuthResp}
    (h : tokenValid env.now s = false) (hr : env.authResp = .ok d) :
    authenticateSpotify env s =
      (.ok d.access_token,
       { s with accessToken := some d.access_token,
                tokenExpiresAt := env.now + d.expires_in * 1000 }, 1) := by
  unfold authenticateSpotify
  rw [if_neg (by simp [h]), hr]

theorem auth_fail {env : Env} {s : St}
    (h : tokenValid env.now s = false) (hr : env.authResp = .error ()) :
    authenticateSpotify env s = (.error "Spotify authentication failed", s, 1) := by
  unfold authenticateSpotify
  rw [if_neg (by simp [h]), hr]

theorem authSucceeds_spec {env : Env} {s : St}
    (h : authSucceeds env s = true) :
    ∃ tok s1 a, authenticateSpotify env s = (.ok tok, s1, a) ∧
      s1.cache = s.cache := by
  unfold authSucceeds at h
  rcases Bool.or_eq_true_iff.mp h with hv | hr
  · exact ⟨_, _, _, auth_valid hv, rfl⟩
  · by_cases hv : tokenValid env.now s = true
    · exact ⟨_, _, _, auth_valid hv, rfl⟩
    · cases hd : env.authResp with
      | ok d =>
        exact ⟨_, _, _, auth_refresh (Bool.of_not_eq_true hv) hd, rfl⟩
      | error u =>
        rw [hd] at hr
        cases hr

theorem fetch_hit {env : Env} {s : St} {mood market : String} {pl tl : Nat}
    (h : jsMapHas s.cache (cacheKey mood market) = true) :
    fetchSongsByMood env s mood market pl tl =
      (.ok ((jsMapGet s.cache (cacheKey mood market)).getD []), s,
       CallLog.zero) := by
  simp only [fetchSongsByMood]
  rw [if_pos h]

theorem fetch_authError {env : Env} {s s1 : St} {mood market : String}
    {pl tl : Nat} {e : String} {a : Nat}
    (hmiss : jsMapHas s.cache (cacheKey mood market) = false)
    (hres : authenticateSpotify env s = (.error e, s1, a)) :
    fetchSongsByMood env s mood market pl tl = (.error e, s1, ⟨a, 0, []⟩) := by
  simp only [fetchSongsByMood]
  rw [if_neg (by simp [hmiss]), hres]

theorem fetch_searchError {env : Env} {s s1 : St} {mood market : String}
    {pl tl : Nat} {tok : String} {a : Nat}
    (hmiss : jsMapHas s.cache (cacheKey mood market) = false)
    (hres : authenticateSpotify env s = (.ok tok, s1, a))
    (hs : env.searchResp = .error ()) :
    fetchSongsByMood env s mood market pl tl = (.ok [], s1, ⟨a, 1, []⟩) := by
  simp only [fetchSongsByMood]
  rw [if_neg (by simp [hmiss]), hres, hs]

theorem fetch_searchOk {env : Env} {s s1 : St} {mood market : String}
    {pl tl : Nat} {tok : String} {a : Nat} {sd : SearchResp}
    (hmiss : jsMapHas s.cache (cacheKey mood market) = false)
    (hres : authenticateSpotify env s = (.ok tok, s1, a))
    (hs : env.searchResp = .ok sd) :
    fetchSongsByMood env s mood market pl tl =
      (.ok (dedupById (aggregate env sd).1),
       { s1 with cache := jsMapSet s1.cache (cacheKey mood market)
                   (dedupById (aggregate env sd).1) },
       ⟨a, 1, (aggregate env sd).2⟩) := by
  simp only [fetchSongsByMood]
  rw [if_neg (by simp [hmiss]), hres, hs]

theorem netlifyFetch_searchError {env : Env} {s s1 : St}
    {mood market : String} {pl tl : Nat} {tok : String} {a : Nat}
    (hmiss : jsMapHas s.cache (cacheKey mood market) = false)
    (hres : authenticateSpotifyNetlify env s = (.ok tok, s1, a))
    (hs : env.searchResp = .error ()) :
    fetchSongsByMoodNetlify env s mood market pl tl =
      (.error "Failed to fetch music recommendations. Please try again later.",
       s1, ⟨a, 1, []⟩) := by
  simp only [fetchSongsByMoodNetlify]
  rw [if_neg (by simp [hmiss]), hres, hs]

theorem auth_cache {env : Env} {s : St} :
    ((authenticateSpotify env s).2.1).cache = s.cache := by
  unfold authenticateSpotify
  split
  · rfl
  · cases hd : env.authResp <;> rfl

theorem auth_cache_preserved {env : Env} {s : St} {r : Except String String}
    {s2 : St} {a : Nat} (hA : authenticateSpotify env s = (r, s2, a)) :
    s2.cache = s.cache := by
  have h0 : ((authenticateSpotify env s).2.1).cache = s.cache := auth_cache
  rw [hA] at h0
  exact h0

theorem authSucceedsNetlify_spec {env : Env} {s : St}
    (h : authSucceeds env s = true) :
    ∃ tok s1 a, authenticateSpotifyNetlify env s = (.ok tok, s1, a) ∧
      s1.cache = s.cache := by
  unfold authSucceeds at h
  rcases Bool.or_eq_true_iff.mp h with hv | hr
  · exact ⟨_, _, _, by unfold authenticateSpotifyNetlify; rw [if_pos hv], rfl⟩
  · by_cases hv : tokenValid env.now s = true
    · exact ⟨_, _, _, by unfold authenticateSpotifyNetlify; rw [if_pos hv], rfl⟩
    · cases hd : env.authResp with
      | ok d =>
        refine ⟨d.access_token,
          { s with accessToken := some d.access_token,
                   tokenExpiresAt := env.now + d.expires_in * 1000 }, 1, ?_, rfl⟩
        unfold authenticateSpotifyNetlify
        rw [if_neg (by simp [hv]), hd]
      | error u =>
        rw [hd] at hr
        cases hr

theorem all_jsMapSet {α : Type} (P : String × α → Bool)
    {m : List (String × α)} {k : String} {v : α}
    (hm : m.all P = true) (hv : P (k, v) = true) :
    (jsMapSet m k v).all P = true := by
  rw [List.all_eq_true] at hm ⊢
  intro q hq
  rcases mem_jsMapSet hq with rfl | hq'
  · exact hv
  · exact hm q hq'

theorem cacheNodup_of_cache_eq {s s' : St} (h : s'.cache = s.cache)
    (hs : cacheNodup s = true) : cacheNodup s' = true := by
  unfold cacheNodup at hs ⊢
  rw [h]
  exact hs

theorem cacheClean_of_cache_eq {s s' : St} (h : s'.cache = s.cache)
    (hs : cacheClean s = true) : cacheClean s' = true := by
  unfold cacheClean at hs ⊢
  rw [h]
  exact hs

theorem playlistTracks_not_blocked {env : Env} {pl : Option RawPlaylist}
    {t : Track} (h : t ∈ (playlistTracks env pl).1) :
    blockedTitle t.title = false := by
  unfold playlistTracks at h
  split at h
  · cases h
  · split at h
    · cases h
    · split at h
      · cases h
      · split at h
        · cases h
        · rename_i items
          obtain ⟨it, _, hsome⟩ := List.mem_filterMap.mp h
          exact trackOfItem_not_blocked hsome

theorem aggregate_not_blocked {env : Env} {sd : SearchResp} {t : Track}
    (h : t ∈ (aggregate env sd).1) : blockedTitle t.title = false := by
  unfold aggregate at h
  obtain ⟨L, hL, htL⟩ := List.mem_flatten.mp h
  obtain ⟨pr, hpr, rfl⟩ := List.mem_map.mp hL
  obtain ⟨pl, _, rfl⟩ := List.mem_map.mp hpr
  exact playlistTracks_not_blocked htL

theorem playlistTracks_failed_fst {env : Env} {pidF : String}
    (hfail : env.trackResp pidF = .error ()) :
    (playlistTracks env (some { id := some pidF })).1 = [] := by
  simp only [playlistTracks]
  split
  · rfl
  · rw [hfail]

theorem aggregate_drop_failed {env : Env} {pidF : String}
    (plsA plsB : List (Option RawPlaylist))
    (hfail : env.trackResp pidF = .error ()) :
    (aggregate env ⟨some (plsA ++ [some { id := some pidF }] ++ plsB)⟩).1 =
      (aggregate env ⟨some (plsA ++ plsB)⟩).1 := by
  unfold aggregate
  simp only [Option.getD_some, List.map_append, List.flatten_append,
    List.map_cons, List.map_nil, List.flatten_cons, List.flatten_nil,
    playlistTracks_failed_fst hfail]
  simp

/-! ## Claim theorems -/

/-- C1 (counterexample): a `fetchSongsByMood` call can complete
successfully (resolve with `.ok`) through the search-failure catch path
while storing nothing in the result cache, so the second call with the
same mood and market issues a playlist-search request again
(`searchCalls = 1`), refuting the claim that after any successfully
completed call the next identical call returns the same list with zero
network requests. -/
theorem C1_counterexample :
    (fetchSongsByMood envSearchFail St.init "m" "US" 5 10).1 = .ok [] ∧
    (fetchSongsByMood envSearchFail
        (fetchSongsByMood envSearchFail St.init "m" "US" 5 10).2.1
        "m" "US" 5 10).2.2 = ⟨0, 1, []⟩ := by
  constructor
  · rfl
  · rfl

/-- C1 (amended): if a call completed successfully and afterwards the
result cache holds the `(mood, market)` key — which is the case exactly
when the pipeline ran to completion (search succeeded) or the key was
already cached — then any second call with the same mood and market
returns exactly the cached list, leaves the state unchanged, and performs
no network request at all. -/
theorem C1_amended_cache_fast_path (env1 env2 : Env) (s : St)
    (mood market : String) (pl1 tl1 pl2 tl2 : Nat) (l : List Track)
    (s1 : St) (log1 : CallLog)
    (h1 : fetchSongsByMood env1 s mood market pl1 tl1 = (.ok l, s1, log1))
    (h2 : jsMapHas s1.cache (cacheKey mood market) = true) :
    fetchSongsByMood env2 s1 mood market pl2 tl2 =
      (.ok l, s1, CallLog.zero) := by
  have hget : jsMapGet s1.cache (cacheKey mood market) = some l := by
    by_cases hm : jsMapHas s.cache (cacheKey mood market) = true
    · rw [fetch_hit hm] at h1
      simp only [Prod.mk.injEq] at h1
      obtain ⟨hr, hs1, _⟩ := h1
      obtain ⟨v, hv⟩ := jsMapHas_some hm
      rw [hv] at hr
      simp only [Option.getD_some] at hr
      rw [Except.ok.injEq] at hr
      rw [← hs1, hv, hr]
    · have hm' : jsMapHas s.cache (cacheKey mood market) = false :=
        Bool.of_not_eq_true hm
      cases hA : authenticateSpotify env1 s with
      | mk r rest =>
        obtain ⟨s2, a⟩ := rest
        cases r with
        | error e =>
          rw [fetch_authError hm' hA] at h1
          simp only [Prod.mk.injEq] at h1
          exact absurd h1.1 (by simp)
        | ok tok =>
          cases hS : env1.searchResp with
          | error u =>
            cases u
            rw [fetch_searchError hm' hA hS] at h1
            simp only [Prod.mk.injEq] at h1
            obtain ⟨hr, hs1, _⟩ := h1
            have hcache : s1.cache = s.cache := by
              rw [← hs1]
              exact auth_cache_preserved hA
            rw [hcache, hm'] at h2
            cases h2
          | ok sd =>
            rw [fetch_searchOk hm' hA hS] at h1
            simp only [Prod.mk.injEq] at h1
            obtain ⟨hr, hs1, _⟩ := h1
            rw [Except.ok.injEq] at hr
            rw [← hs1]
            show jsMapGet (jsMapSet s2.cache (cacheKey mood market)
              (dedupById (aggregate env1 sd).1)) (cacheKey mood market) = some l
            rw [jsMapGet_jsMapSet, if_pos rfl, hr]
  rw [fetch_hit h2, hget]
  rfl

/-- C1 (amended) witness: after a successful pipeline run of `envOne`
that cached `[trkZ]` under `"m_US"`, a second call (even in an
environment where every request would fail) returns the cached list with
zero network calls. -/
theorem C1_amended_witness :
    fetchSongsByMood envSearchFail stMUS "m" "US" 5 10 =
      (.ok [trkZ], stMUS, CallLog.zero) :=
  C1_amended_cache_fast_path envOne envSearchFail St.init "m" "US"
    5 10 5 10 [trkZ] stMUS ⟨1, 1, ["p1"]⟩ (by decide) (by decide)

/-- C2: any list returned with `.ok` by `fetchSongsByMood`, starting from
a state whose cached lists all have pairwise distinct track ids, itself
has pairwise distinct track ids, and the invariant is preserved in the
resulting state. -/
theorem C2_unique_ids (env : Env) (s : St) (mood market : String)
    (pl tl : Nat) (l : List Track) (s1 : St) (log : CallLog)
    (hinv : cacheNodup s = true)
    (h : fetchSongsByMood env s mood market pl tl = (.ok l, s1, log)) :
    (l.map Track.id).Nodup ∧ cacheNodup s1 = true := by
  by_cases hm : jsMapHas s.cache (cacheKey mood market) = true
  · rw [fetch_hit hm] at h
    simp only [Prod.mk.injEq] at h
    obtain ⟨hr, hs1, _⟩ := h
    obtain ⟨v, hv⟩ := jsMapHas_some hm
    have hvmem : (cacheKey mood market, v) ∈ s.cache := jsMapGet_some_mem hv
    have hvnd : (v.map Track.id).Nodup := by
      unfold cacheNodup at hinv
      rw [List.all_eq_true] at hinv
      exact of_decide_eq_true (hinv _ hvmem)
    rw [hv] at hr
    simp only [Option.getD_some] at hr
    rw [Except.ok.injEq] at hr
    subst hr
    exact ⟨hvnd, cacheNodup_of_cache_eq (by rw [← hs1]) hinv⟩
  · have hm' : jsMapHas s.cache (cacheKey mood market) = false :=
      Bool.of_not_eq_true hm
    cases hA : authenticateSpotify env s with
    | mk r rest =>
      obtain ⟨s2, a⟩ := rest
      cases r with
      | error e =>
        rw [fetch_authError hm' hA] at h
        simp only [Prod.mk.injEq] at h
        exact absurd h.1 (by simp)
      | ok tok =>
        cases hS : env.searchResp with
        | error u =>
          cases u
          rw [fetch_searchError hm' hA hS] at h
          simp only [Prod.mk.injEq] at h
          obtain ⟨hr, hs1, _⟩ := h
          rw [Except.ok.injEq] at hr
          subst hr
          refine ⟨by simp, ?_⟩
          exact cacheNodup_of_cache_eq
            (by rw [← hs1]; exact auth_cache_preserved hA) hinv
        | ok sd =>
          rw [fetch_searchOk hm' hA hS] at h
          simp only [Prod.mk.injEq] at h
          obtain ⟨hr, hs1, _⟩ := h
          rw [Except.ok.injEq] at hr
          subst hr
          refine ⟨dedupById_nodup _, ?_⟩
          have h2 : cacheNodup s2 = true :=
            cacheNodup_of_cache_eq (auth_cache_preserved hA) hinv
          unfold cacheNodup
          rw [show s1.cache = jsMapSet s2.cache (cacheKey mood market)
            (dedupById (aggregate env sd).1) by rw [← hs1]]
          apply all_jsMapSet
          · unfold cacheNodup at h2
            exact h2
          · exact decide_eq_true (dedupById_nodup _)

/-- C2 witness: the run of `envDup` (two raw items with the same id)
returns a list with distinct ids and a state still satisfying the
invariant. -/
theorem C2_witness :
    (([trkW] : List Track).map Track.id).Nodup ∧ cacheNodup stDup = true :=
  C2_unique_ids envDup St.init "m" "US" 5 10 [trkW] stDup ⟨1, 1, ["p1"]⟩
    (by decide) (by decide)

/-- C3: every track in a list returned with `.ok` by `fetchSongsByMood`
(starting from a state whose cached lists are blocklist-clean) has a
title whose lowercase form contains no blocklist keyword as a substring,
and the invariant is preserved. -/
theorem C3_blocklist_filter (env : Env) (s : St) (mood market : String)
    (pl tl : Nat) (l : List Track) (s1 : St) (log : CallLog)
    (hinv : cacheClean s = true)
    (h : fetchSongsByMood env s mood market pl tl = (.ok l, s1, log)) :
    (∀ t ∈ l, blockedTitle t.title = false) ∧ cacheClean s1 = true := by
  by_cases hm : jsMapHas s.cache (cacheKey mood market) = true
  · rw [fetch_hit hm] at h
    simp only [Prod.mk.injEq] at h
    obtain ⟨hr, hs1, _⟩ := h
    obtain ⟨v, hv⟩ := jsMapHas_some hm
    have hvmem : (cacheKey mood market, v) ∈ s.cache := jsMapGet_some_mem hv
    have hvcl : ∀ t ∈ v, blockedTitle t.title = false := by
      unfold cacheClean at hinv
      rw [List.all_eq_true] at hinv
      have hall := hinv _ hvmem
      rw [List.all_eq_true] at hall
      intro t ht
      have := hall t ht
      simpa using this
    rw [hv] at hr
    simp only [Option.getD_some] at hr
    rw [Except.ok.injEq] at hr
    subst hr
    exact ⟨hvcl, cacheClean_of_cache_eq (by rw [← hs1]) hinv⟩
  · have hm' : jsMapHas s.cache (cacheKey mood market) = false :=
      Bool.of_not_eq_true hm
    cases hA : authenticateSpotify env s with
    | mk r rest =>
      obtain ⟨s2, a⟩ := rest
      cases r with
      | error e =>
        rw [fetch_authError hm' hA] at h
        simp only [Prod.mk.injEq] at h
        exact absurd h.1 (by simp)
      | ok tok =>
        cases hS : env.searchResp with
        | error u =>
          cases u
          rw [fetch_searchError hm' hA hS] at h
          simp only [Prod.mk.injEq] at h
          obtain ⟨hr, hs1, _⟩ := h
          rw [Except.ok.injEq] at hr
          subst hr
          refine ⟨by simp, ?_⟩
          exact cacheClean_of_cache_eq
            (by rw [← hs1]; exact auth_cache_preserved hA) hinv
        | ok sd =>
          rw [fetch_searchOk hm' hA hS] at h
          simp only [Prod.mk.injEq] at h
          obtain ⟨hr, hs1, _⟩ := h
          rw [Except.ok.injEq] at hr
          subst hr
          have hcl : ∀ t ∈ dedupById (aggregate env sd).1,
              blockedTitle t.title = false :=
            fun t ht => aggregate_not_blocked (mem_of_mem_dedupById ht)
          refine ⟨hcl, ?_⟩
          have h2 : cacheClean s2 = true :=
            cacheClean_of_cache_eq (auth_cache_preserved hA) hinv
          unfold cacheClean
          rw [show s1.cache = jsMapSet s2.cache (cacheKey mood market)
            (dedupById (aggregate env sd).1) by rw [← hs1]]
          apply all_jsMapSet
          · unfold cacheClean at h2
            exact h2
          · rw [List.all_eq_true]
            intro t ht
            simpa using hcl t ht

/-- C3 witness: the track returned by the `envDup` run passes the
blocklist check, and the invariant holds in the resulting state. -/
theorem C3_witness :
    blockedTitle trkW.title = false ∧ cacheClean stDup = true :=
  ⟨(C3_blocklist_filter envDup St.init "m" "US" 5 10 [trkW] stDup
      ⟨1, 1, ["p1"]⟩ (by decide) (by decide)).1 trkW (by decide),
   (C3_blocklist_filter envDup St.init "m" "US" 5 10 [trkW] stDup
      ⟨1, 1, ["p1"]⟩ (by decide) (by decide)).2⟩

/-- C4 (counterexample): for two tracks with the same id `"a"` but
different fields, `new Map(...)` deduplication keeps the position of the
first occurrence but the field values of the second occurrence, so the
survivor is `trkW`, not the first occurrence `trkZ` as the claim
requires. -/
theorem C4_counterexample :
    dedupById [trkZ, trkW] = [trkW] ∧ dedupById [trkZ, trkW] ≠ [trkZ] := by
  constructor
  · rfl
  · decide

/-- C4 (amended): when several records share an id, the survivor of
deduplication occupies the position of the first occurrence of that id
(output ids are in first-seen order), but its field values are those of
the last occurrence of that id in the flattened sequence (JS `Map.set`
overwrites the value of an existing key in place). -/
theorem C4_amended_dedup (ts : List Track) :
    (dedupById ts).map Track.id = firstSeen (ts.map Track.id) ∧
    ∀ t ∈ dedupById ts,
      (ts.filter (fun u => decide (u.id = t.id))).getLast? = some t :=
  ⟨dedupById_ids ts, fun _ ht => dedupById_last ht⟩

/-- C4 (amended) witness: on `[trkZ, trkW]` (same id) the surviving
record `trkW` is the last occurrence of id `"a"`. -/
theorem C4_amended_witness :
    (dedupById [trkZ, trkW]).map Track.id =
      firstSeen ([trkZ, trkW].map Track.id) ∧
    ([trkZ, trkW].filter (fun u => decide (u.id = trkW.id))).getLast? =
      some trkW :=
  ⟨(C4_amended_dedup [trkZ, trkW]).1,
   (C4_amended_dedup [trkZ, trkW]).2 trkW (by decide)⟩

/-- C5 (counterexample): in `part_008`'s `fetchSongsByMood`, a failing
playlist search does not propagate to the caller: the call resolves with
`.ok []` (the catch block returns the empty list).  The cache is left
without the key, as the claim says, but the call does not reject. -/
theorem C5_counterexample :
    (fetchSongsByMood envSearchFail St.init "m" "US" 5 10).1 = .ok [] ∧
    jsMapHas (fetchSongsByMood envSearchFail St.init "m" "US" 5 10).2.1.cache
      (cacheKey "m" "US") = false := by
  constructor
  · rfl
  · rfl

/-- C5 (amended): on search failure with no cached entry, no variant
caches anything for the key; the part_001 (Netlify production) variant
rejects with an error, but the part_008/part_003 variants catch the
failure and resolve with the empty list. -/
theorem C5_amended_search_failure (env : Env) (s : St) (mood market : String)
    (pl tl : Nat)
    (hmiss : jsMapHas s.cache (cacheKey mood market) = false)
    (hauth : authSucceeds env s = true)
    (hs : env.searchResp = .error ()) :
    (fetchSongsByMood env s mood market pl tl).1 = .ok [] ∧
    jsMapHas (fetchSongsByMood env s mood market pl tl).2.1.cache
      (cacheKey mood market) = false ∧
    (fetchSongsByMoodNetlify env s mood market pl tl).1 =
      .error "Failed to fetch music recommendations. Please try again later." ∧
    jsMapHas (fetchSongsByMoodNetlify env s mood market pl tl).2.1.cache
      (cacheKey mood market) = false := by
  obtain ⟨tok, s1, a, hA, hc⟩ := authSucceeds_spec hauth
  obtain ⟨tok2, s2, a2, hA2, hc2⟩ := authSucceedsNetlify_spec hauth
  rw [fetch_searchError hmiss hA hs, netlifyFetch_searchError hmiss hA2 hs]
  refine ⟨rfl, ?_, rfl, ?_⟩
  · show jsMapHas s1.cache (cacheKey mood market) = false
    rw [hc]
    exact hmiss
  · show jsMapHas s2.cache (cacheKey mood market) = false
    rw [hc2]
    exact hmiss

/-- C5 (amended) witness: concrete search-failure run for both
variants. -/
theorem C5_amended_witness :
    (fetchSongsByMood envSearchFail St.init "m" "US" 5 10).1 = .ok [] ∧
    jsMapHas (fetchSongsByMood envSearchFail St.init "m" "US" 5 10).2.1.cache
      (cacheKey "m" "US") = false ∧
    (fetchSongsByMoodNetlify envSearchFail St.init "m" "US" 5 10).1 =
      .error "Failed to fetch music recommendations. Please try again later." ∧
    jsMapHas
      (fetchSongsByMoodNetlify envSearchFail St.init "m" "US" 5 10).2.1.cache
      (cacheKey "m" "US") = false :=
  C5_amended_search_failure envSearchFail St.init "m" "US" 5 10
    (by decide) (by decide) (by decide)

/-- C6: with no cached entry, an expired/absent token, and a failing
token endpoint, `fetchSongsByMood` rejects with the authentication error
and leaves the whole state (in particular the result cache) unchanged,
so a later call for the same key runs the pipeline again. -/
theorem C6_auth_failure_not_cached (env : Env) (s : St)
    (mood market : String) (pl tl : Nat)
    (hmiss : jsMapHas s.cache (cacheKey mood market) = false)
    (htok : tokenValid env.now s = false)
    (hr : env.authResp = .error ()) :
    fetchSongsByMood env s mood market pl tl =
      (.error "Spotify authentication failed", s, ⟨1, 0, []⟩) :=
  fetch_authError hmiss (auth_fail htok hr)

/-- C6 witness: concrete failing-authentication run. -/
theorem C6_witness :
    fetchSongsByMood envAllFail St.init "m" "US" 5 10 =
      (.error "Spotify authentication failed", St.init, ⟨1, 0, []⟩) :=
  C6_auth_failure_not_cached envAllFail St.init "m" "US" 5 10
    (by decide) (by decide) (by decide)

/-- C7: if the search returns a playlist list containing one playlist
whose track fetch fails, the pipeline still resolves, and both its
returned list and its resulting state are identical to the run whose
search response simply omits the failing playlist: the failed playlist
contributes zero tracks and its failure never surfaces. -/
theorem C7_partial_failure_isolation (env : Env) (s : St)
    (mood market : String) (pl tl : Nat)
    (plsA plsB : List (Option RawPlaylist)) (pidF : String)
    (hmiss : jsMapHas s.cache (cacheKey mood market) = false)
    (hauth : authSucceeds env s = true)
    (hsearch : env.searchResp =
      .ok ⟨some (plsA ++ [some { id := some pidF }] ++ plsB)⟩)
    (hne : pidF ≠ "")
    (hfail : env.trackResp pidF = .error ())
    (hok : ∀ pid, pid ≠ pidF →
      (match env.trackResp pid with
       | .ok _ => true
       | .error _ => false) = true) :
    ∃ l s2 log log',
      fetchSongsByMood env s mood market pl tl = (.ok l, s2, log) ∧
      fetchSongsByMood { env with searchResp := .ok ⟨some (plsA ++ plsB)⟩ }
        s mood market pl tl = (.ok l, s2, log') := by
  obtain ⟨tok, s1, a, hA, hc⟩ := authSucceeds_spec hauth
  have hA' : authenticateSpotify
      { env with searchResp := .ok ⟨some (plsA ++ plsB)⟩ } s =
      (.ok tok, s1, a) := hA
  have hs' : ({ env with searchResp := .ok ⟨some (plsA ++ plsB)⟩ } :
      Env).searchResp = .ok ⟨some (plsA ++ plsB)⟩ := rfl
  rw [fetch_searchOk hmiss hA hsearch, fetch_searchOk hmiss hA' hs']
  have hagg : (aggregate env
        ⟨some (plsA ++ [some { id := some pidF }] ++ plsB)⟩).1 =
      (aggregate { env with searchResp := .ok ⟨some (plsA ++ plsB)⟩ }
        ⟨some (plsA ++ plsB)⟩).1 :=
    aggregate_drop_failed plsA plsB hfail
  rw [hagg]
  exact ⟨_, _, _, _, rfl, rfl⟩

/-- C7 witness: `envIso` holds playlists `p1` (succeeding) and `p2`
(failing); the run equals the run without `p2`. -/
theorem C7_witness :
    ∃ l s2 log log',
      fetchSongsByMood envIso St.init "m" "US" 5 10 = (.ok l, s2, log) ∧
      fetchSongsByMood { envIso with searchResp := .ok ⟨some ([some { id := some "p1" }] ++ [])⟩ } St.init "m" "US" 5 10 = (.ok l, s2, log') :=
  C7_partial_failure_isolation envIso St.init "m" "US" 5 10
    [some { id := some "p1" }] [] "p2" (by decide) (by decide) (by decide)
    (by decide) (by decide) (by intro pid hp; simp [envIso, hp])

/-- C8: with no cached entry and a successful search whose body lacks a
`playlists.items` array (or has an empty one), `fetchSongsByMood`
resolves with the empty list and issues no playlist-track request. -/
theorem C8_no_playlists (env : Env) (s : St) (mood market : String)
    (pl tl : Nat) (sd : SearchResp)
    (hmiss : jsMapHas s.cache (cacheKey mood market) = false)
    (hauth : authSucceeds env s = true)
    (hs : env.searchResp = .ok sd)
    (hempty : sd.playlistsItems = none ∨ sd.playlistsItems = some []) :
    (fetchSongsByMood env s mood market pl tl).1 = .ok [] ∧
    (fetchSongsByMood env s mood market pl tl).2.2.trackCalls = [] := by
  obtain ⟨tok, s1, a, hA, _⟩ := authSucceeds_spec hauth
  have hagg : aggregate env sd = ([], []) := by
    unfold aggregate
    rcases hempty with h | h <;> rw [h] <;> rfl
  rw [fetch_searchOk hmiss hA hs, hagg]
  constructor
  · rfl
  · rfl

/-- C8 witness: concrete run with a missing `playlists.items` field. -/
theorem C8_witness :
    (fetchSongsByMood envNoItems St.init "m" "US" 5 10).1 = .ok [] ∧
    (fetchSongsByMood envNoItems St.init "m" "US" 5 10).2.2.trackCalls = [] :=
  C8_no_playlists envNoItems St.init "m" "US" 5 10 ⟨none⟩ (by decide)
    (by decide) (by decide) (Or.inl rfl)

/-- C9: the token cache (`authenticateSpotify`, part_008): (a) while the
stored token exists and the time is strictly before the stored expiry
minus the 60-second buffer, the stored token is returned with no network
call; (b) otherwise a successful exchange stores the returned token with
expiry `now + expires_in * 1000` and returns it (one call); (c) a failed
exchange throws the authentication error, leaves the stored pair
untouched, and makes exactly one attempt. -/
theorem C9_token_cache_contract (env : Env) (s : St) :
    (tokenValid env.now s = true →
      ∃ tok, s.accessToken = some tok ∧
        authenticateSpotify env s = (.ok tok, s, 0)) ∧
    (∀ d, tokenValid env.now s = false → env.authResp = .ok d →
      authenticateSpotify env s =
        (.ok d.access_token,
         { s with accessToken := some d.access_token,
                  tokenExpiresAt := env.now + d.expires_in * 1000 }, 1)) ∧
    (tokenValid env.now s = false → env.authResp = .error () →
      authenticateSpotify env s =
        (.error "Spotify authentication failed", s, 1)) := by
  refine ⟨?_, fun d h hr => auth_refresh h hr, fun h hr => auth_fail h hr⟩
  intro h
  have htr : truthyOpt s.accessToken = true := by
    unfold tokenValid at h
    exact ((Bool.and_eq_true _ _).mp h).1
  cases hat : s.accessToken with
  | none => rw [hat] at htr; cases htr
  | some tok =>
    refine ⟨tok, rfl, ?_⟩
    rw [auth_valid h, hat]
    rfl

/-- C9 witness: the three branches at concrete inputs — a valid stored
token is returned without a call, a refresh stores `now + 3600 * 1000`,
and a failing endpoint yields the authentication error. -/
theorem C9_witness :
    (∃ tok, stTok.accessToken = some tok ∧
      authenticateSpotify envSearchFail stTok = (.ok tok, stTok, 0)) ∧
    authenticateSpotify envOne St.init =
      (.ok authOkResp.access_token,
       { St.init with accessToken := some authOkResp.access_token,
                      tokenExpiresAt :=
                        envOne.now + authOkResp.expires_in * 1000 }, 1) ∧
    authenticateSpotify envAllFail St.init =
      (.error "Spotify authentication failed", St.init, 1) :=
  ⟨(C9_token_cache_contract envSearchFail stTok).1 (by decide),
   (C9_token_cache_contract envOne St.init).2.1 authOkResp (by decide)
     (by decide),
   (C9_token_cache_contract envAllFail St.init).2.2 (by decide) (by decide)⟩

/-- C10: the result-cache key `mood ++ "_" ++ market` is not injective:
the distinct pairs `("a_b", "C")` and `("a", "b_C")` share the key
`"a_b_C"`, so after a completed pipeline run for `("a_b", "C")` a call
for `("a", "b_C")` returns the other pair's cached list immediately —
with zero network calls, even in an environment where every request
would fail. -/
theorem C10_cache_key_collision :
    (("a_b", "C") : String × String) ≠ ("a", "b_C") ∧
    cacheKey "a_b" "C" = cacheKey "a" "b_C" ∧
    fetchSongsByMood envOne St.init "a_b" "C" 5 10 =
      (.ok [trkZ], stOne, ⟨1, 1, ["p1"]⟩) ∧
    fetchSongsByMood envAllFail stOne "a" "b_C" 5 10 =
      (.ok [trkZ], stOne, CallLog.zero) := by
  refine ⟨by decide, by decide, by decide, by decide⟩

end Moodify
